import Mathlib

/-!
Shallow embedding of `saltapi/netapi/rest_cherrypy/__init__.py`: the
request/response pipeline of the salt-api CherryPy REST gateway.  Pure
Python functions become Lean functions; the per-request mutable CherryPy
state (`cherrypy.response`, the session token slot, the module-level
`ct_out_map` registry) becomes explicit state passing.  External
collaborators (the Salt execution backend `self.api.run`, the auth backend
`salt.auth.LoadAuth(...).mk_token`, the serializers in `salt.output`, the
Jinja template renderer, and CherryPy's `cptools.accept`) are parameters
or symbolic constructors.
-/

set_option autoImplicit false

namespace RestCherry

/-- A decoded request-body value: either a scalar or a list of scalars
(the two shapes `fmt_lowdata` distinguishes via `isinstance(v, list)`). -/
inductive Val where
  | scalar (s : String)
  | list (l : List String)
deriving DecidableEq

/-- Coercion `argl = v if isinstance(v, list) else [v]` in `fmt_lowdata`. -/
def Val.toListVal : Val → List String
  | .scalar s => [s]
  | .list l => l

/-- One lowdata chunk, as the `dict(i)` built by `fmt_lowdata`
(keys are the distinct body keys, so an association list is faithful). -/
abbrev Chunk := List (String × String)

/-- Length of the longest iterable, which is how far
`itertools.izip_longest` runs. -/
def maxLen {α : Type} (ls : List (List α)) : Nat :=
  ls.foldr (fun l acc => max l.length acc) 0

/-- Embedding of `itertools.izip_longest(*pairs)` with the default fillvalue `None`:
row `i` holds, for each input list, its `i`-th element or `none`. -/
def izipLongest {α : Type} (ls : List (List α)) : List (List (Option α)) :=
  (List.range (maxLen ls)).map (fun i => ls.map (fun l => l.get? i))

/-- The loop body of `fmt_lowdata`: for each zipped row, raise
`Exception("Error pairing parameters: ...")` when `not all(i)` (a fill
slot `None` is the only falsy element, since `(k, v)` tuples are always
truthy), else `lowdata.append(dict(i))`. -/
def pairRows : List (List (Option (String × String))) →
    Except (List (Option (String × String))) (List Chunk)
  | [] => .ok []
  | r :: rs =>
    if r.any Option.isNone then .error r
    else
      match pairRows rs with
      | .error e => .error e
      | .ok rest => .ok (r.filterMap id :: rest)

/-- The `pairs` list built by the first loop of `fmt_lowdata`:
`zip([k] * len(argl), argl)` for each item. -/
def lowPairs (data : List (String × Val)) : List (List (String × String)) :=
  data.map (fun kv => kv.2.toListVal.map (fun a => (kv.1, a)))

/-- Embedding of `LowDataAdapter.fmt_lowdata`: coerce each value to a list, form the
per-key `(key, value)` pair lists, zip them longest-wise and reject any
row with a missing slot.  On failure it carries the offending row (the
positional tuple the raised message reports). -/
def fmt_lowdata (data : List (String × Val)) :
    Except (List (Option (String × String))) (List Chunk) :=
  pairRows (izipLongest (lowPairs data))

/-- A Python data value as produced/consumed by the route handlers
(the response envelopes and backend results). -/
inductive PyData where
  | pstr (s : String)
  | pint (n : Int)
  | pnone
  | plist (l : List PyData)
  | pdict (l : List (String × PyData))

/-- Python `str.startswith(p)`, as a kernel-reducible character-list prefix
check. -/
def strStartsWith (s p : String) : Bool := List.isPrefixOf p.data s.data

/-- Decimal value of a digit prefix (for the status code CherryPy parses
out of a string-valued `response.status` such as `'401 Unauthorized'`). -/
def digitsToNat (l : List Char) : Nat :=
  l.foldl (fun acc c => acc * 10 + (c.toNat - 48)) 0

/-- Leading status code of a string-valued `response.status`. -/
def statusStrCode (s : String) : Nat :=
  let ds := s.data.takeWhile Char.isDigit
  if ds.isEmpty then 200 else digitsToNat ds

/-- State of `cherrypy.response.status`: unset by default, an int after
`cherrypy.response.status = 500`, a string after
`cherrypy.response.status = '401 Unauthorized'`. -/
inductive StatusVal where
  | unset
  | int (n : Nat)
  | str (s : String)
deriving DecidableEq

/-- Numeric HTTP status CherryPy derives from `response.status`
(default 200 when never set). -/
def StatusVal.code : StatusVal → Nat
  | .unset => 200
  | .int n => n
  | .str s => statusStrCode s

/-- The value the handler reads back from `cherrypy.response.status`
when embedding it into an envelope. -/
def StatusVal.toPy : StatusVal → PyData
  | .unset => .pnone
  | .int n => .pint n
  | .str s => .pstr s

/-- An entry of the output registry: either a named Salt outputter
(`'json'`, `'yaml'`, `'raw'`) or the bound `fmt_tmpl` method a route
installs (carrying the adapter's template name).  `callable(out)` is
true exactly for the latter. -/
inductive Outputter where
  | named (s : String)
  | tmplMethod (tmpl : String)
deriving DecidableEq

/-- The Content-Type -> outputter registry (a Python dict, modelled as
an ordered association list with distinct keys). -/
abbrev Registry := List (String × Outputter)

/-- Python dict assignment `d[k] = v`: replace the existing binding,
else append. -/
def regSet (r : Registry) (k : String) (v : Outputter) : Registry :=
  if r.any (fun kv => kv.1 == k) then
    r.map (fun kv => if kv.1 == k then (k, v) else kv)
  else r ++ [(k, v)]

/-- The module-level `ct_out_map` as initialized at import time. -/
def ct_out_map : Registry :=
  [("application/json", .named "json"), ("application/x-yaml", .named "yaml")]

/-- A Python value that can sit in the session's `token` slot:
a token string, or `False` (stored by `Login.POST` when
`mk_token(...).get('token', False)` finds no token). -/
inductive PyAtom where
  | pstr (s : String)
  | pfalse
deriving DecidableEq

/-- Python truthiness of a session token value. -/
def PyAtom.truthy : PyAtom → Bool
  | .pstr s => !s.isEmpty
  | .pfalse => false

inductive Method where
  | GET
  | POST
deriving DecidableEq

/-- One HTTP request as seen by the pipeline: the method, the URL path,
the optional `X-Auth-Token` header, the client's `Accept` preferences
(highest-ranked first) and the already-decoded body mapping. -/
structure Request where
  method : Method
  path : String
  xAuthToken : Option String := none
  accept : List String := []
  body : List (String × Val) := []

/-- Truthiness of `cherrypy.session.get('token', None) or
cherrypy.request.headers.get('X-Auth-Token', None)` in
`salt_auth_tool` (`session` is the session's token slot; `none` means
the key is absent). -/
def truthySid (session : Option PyAtom) (hdr : Option String) : Bool :=
  (match session with
   | some a => a.truthy
   | none => false) ||
  (match hdr with
   | some s => !s.isEmpty
   | none => false)

/-- The gate condition of `salt_auth_tool`: the request proceeds on its
own path unless the path is outside `ignore_urls = ('/login',)` and no
credential is present (in which case `InternalRedirect('/login')` is
raised). -/
def gatePasses (session : Option PyAtom) (hdr : Option String) (path : String) : Bool :=
  strStartsWith path "/login" || truthySid session hdr

/-- Per-request mutable CherryPy state threaded through the handlers:
`cherrypy.response.status`, `cherrypy.response.headers`,
`cherrypy.response._tmpl`, `cherrypy.response.processors` (which, after
line `cherrypy.response.processors = ct_out_map`, is the module-level
dict object itself), and the session's `token` slot. -/
structure St where
  status : StatusVal
  headers : List (String × String)
  tmplSlot : Option String
  processors : Registry
  session : Option PyAtom

/-- Assignment `cherrypy.response.headers[k] = v` (replace or append). -/
def setHeader (hs : List (String × String)) (k v : String) : List (String × String) :=
  if hs.any (fun kv => kv.1 == k) then
    hs.map (fun kv => if kv.1 == k then (k, v) else kv)
  else hs ++ [(k, v)]

/-- A `cherrypy.CherryPyException` raised by a handler (the only one the
modelled handlers raise is `HTTPRedirect`). -/
inductive CPExc where
  | httpRedirect (loc : String) (code : Nat)
deriving DecidableEq

/-- Outcome of running a route handler body: a returned envelope, a
re-raised framework exception, or any other exception (with its
`str(exc)` detail). -/
inductive InnerStep where
  | ret (st : St) (v : PyData)
  | raiseCP (st : St) (e : CPExc)
  | raiseExc (st : St) (detail : String)

/-- A single apostrophe character, for Python tuple repr. -/
def sq : String := String.singleton (Char.ofNat 39)

/-- Python `str` of one element of an `izip_longest` row: `None` for a
fill slot, the tuple repr for a pair. -/
def pyStrSlot : Option (String × String) → String
  | none => "None"
  | some kv => "(" ++ sq ++ kv.1 ++ sq ++ ", " ++ sq ++ kv.2 ++ sq ++ ")"

/-- Python `str(i)` of the offending `izip_longest` row. -/
def pyStrRow (r : List (Option (String × String))) : String :=
  "(" ++ String.intercalate ", " (r.map pyStrSlot) ++ ")"

/-- Embedding of `LowDataAdapter.exec_lowdata` with the external
`self.api.run` as a parameter: `[run(chunk) for chunk in lowdata]`,
evaluated left to right, the first raised error aborting the whole
comprehension. -/
def exec_lowdata (run : Chunk → Except String PyData) :
    List Chunk → Except String (List PyData)
  | [] => .ok []
  | c :: cs =>
    match run c with
    | .error e => .error e
    | .ok r =>
      match exec_lowdata run cs with
      | .error e => .error e
      | .ok rs => .ok (r :: rs)

/-- Embedding of `LowDataAdapter.GET`: install the HTML override
`cherrypy.response.processors['text/html'] = self.fmt_tmpl` (the bound
method of the adapter whose `tmpl` is `'index.html'`), then return the
welcome envelope with the current response status. -/
def adapterGET (st : St) : InnerStep :=
  let st1 := { st with processors := regSet st.processors "text/html" (.tmplMethod "index.html") }
  .ret st1 (.pdict [("status", st1.status.toPy), ("message", .pstr "Welcome")])

/-- Embedding of `LowDataAdapter.POST`, which returns the envelope of `self.exec_lowdata(self.fmt_lowdata(kwargs))`.
A `fmt_lowdata` pairing failure raises an ordinary `Exception`; a backend
failure propagates out of `exec_lowdata`. -/
def adapterPOST (run : Chunk → Except String PyData)
    (body : List (String × Val)) (st : St) : InnerStep :=
  match fmt_lowdata body with
  | .error r => .raiseExc st ("Error pairing parameters: " ++ pyStrRow r)
  | .ok lowdata =>
    match exec_lowdata run lowdata with
    | .error detail => .raiseExc st detail
    | .ok results => .ret st (.pdict [("return", .plist results)])

/-- Embedding of `Login.GET`: install the HTML override (template `login.html`),
set `response.status = '401 Unauthorized'` and the `WWW-Authenticate`
header, and return the challenge envelope. -/
def loginGET (st : St) : InnerStep :=
  let st1 := { st with processors := regSet st.processors "text/html" (.tmplMethod "login.html") }
  let st2 := { st1 with status := .str "401 Unauthorized" }
  let st3 := { st2 with headers := setHeader st2.headers "WWW-Authenticate" "Session" }
  .ret st3 (.pdict [("status", st3.status.toPy), ("message", .pstr "Please log in")])

/-- Embedding of `Login.POST` with the external auth backend's
`mk_token(kwargs).get('token', False)` as the parameter `mkTokenRes`
(`none` models the `False` default): set the `X-Auth-Token` response
header to the session id, store the token (possibly `False`) in the
session, and raise `HTTPRedirect('/', 302)`. -/
def loginPOST (mkTokenRes : Option String) (sessionId : String) (st : St) : InnerStep :=
  let token : PyAtom := match mkTokenRes with
    | some t => .pstr t
    | none => .pfalse
  let st1 := { st with headers := setHeader st.headers "X-Auth-Token" sessionId }
  let st2 := { st1 with session := some token }
  .raiseCP st2 (.httpRedirect "/" 302)

/-- Modelled from the spec: `cherrypy.lib.cptools.accept` is CherryPy
framework code, not part of this repository.  Per the spec it parses the
accept header's ranked preferences (given here highest-ranked first),
intersects them with the registered media types and returns the
highest-preference match, failing with NotAcceptable (HTTP 406) when no
registered type satisfies the header (`none` here). -/
def selectOutput (accept : List String) (registered : List String) : Option String :=
  accept.find? (fun a => registered.contains a)

/-- The serialized response body: a Salt outputter applied to an
envelope (external `salt.output.out_format`, symbolic), a rendered Jinja
template (external, symbolic), or CherryPy's own default error/redirect
body. -/
inductive Body where
  | formatted (outputter : String) (data : PyData)
  | rendered (tmpl : String) (data : PyData)
  | frameworkDefault

/-- The envelope carried by a serialized body, if any. -/
def Body.data : Body → Option PyData
  | .formatted _ d => some d
  | .rendered _ d => some d
  | .frameworkDefault => none

/-- The observable outcome of one request: HTTP status, response
headers, negotiated Content-Type, serialized body, the contents of the
module-level `ct_out_map` dict after the request (it is aliased by
`cherrypy.response.processors`), and the session's token slot after the
request. -/
structure PipeResult where
  status : Nat
  headers : List (String × String)
  contentType : Option String
  body : Body
  ctOutMapAfter : Registry
  sessionAfter : Option PyAtom

/-- CherryPy's handling of a re-raised `CherryPyException`
(`HTTPRedirect` sets `Location` and the redirect status; the response
headers set so far are kept). -/
def cpHandle (st : St) : CPExc → PipeResult
  | .httpRedirect loc code =>
    { status := code
      headers := setHeader st.headers "Location" loc
      contentType := none
      body := .frameworkDefault
      ctOutMapAfter := st.processors
      sessionAfter := st.session }

/-- Run the selected outputter on the envelope: the bound `fmt_tmpl`
method first sets `cherrypy.response.processors['text/html'] = 'raw'`
(mutating the aliased dict again) and renders the adapter's template;
a named outputter goes through `salt.output.out_format`. -/
def applyOutputter (o : Outputter) (ret : PyData) (st : St) : Body × St :=
  match o with
  | .named s => (.formatted s ret, st)
  | .tmplMethod t =>
    (.rendered t ret, { st with processors := regSet st.processors "text/html" (.named "raw") })

/-- Lines 124-134 of `hypermedia_handler`: negotiate the Accept header
against `cherrypy.response.processors.keys()` (406 when nothing
matches), set `Content-Type`, and apply the chosen outputter. -/
def negotiate (st : St) (ret : PyData) (accept : List String) : PipeResult :=
  match selectOutput accept (st.processors.map Prod.fst) with
  | none =>
    { status := 406
      headers := st.headers
      contentType := none
      body := .frameworkDefault
      ctOutMapAfter := st.processors
      sessionAfter := st.session }
  | some best =>
    let st1 := { st with headers := setHeader st.headers "Content-Type" best }
    match (st1.processors.find? (fun kv => kv.1 == best)).map Prod.snd with
    | none =>
      { status := st1.status.code
        headers := st1.headers
        contentType := some best
        body := .frameworkDefault
        ctOutMapAfter := st1.processors
        sessionAfter := st1.session }
    | some o =>
      let bs := applyOutputter o ret st1
      { status := bs.2.status.code
        headers := bs.2.headers
        contentType := some best
        body := bs.1
        ctOutMapAfter := bs.2.processors
        sessionAfter := bs.2.session }

/-- Embedding of `hypermedia_handler`: assign the module-level dict `g` (the current
contents of `ct_out_map`) to `cherrypy.response.processors` — an
aliasing assignment, so every later mutation of `processors` is a
mutation of the module-level dict — then run the inner handler;
re-raise `CherryPyException` unmodified; translate any other exception
into the 500 envelope (`str(exc)` in debug mode, the fixed generic
message otherwise); finally negotiate the output format, which runs on
the error path too. -/
def hypermediaHandler (g : Registry) (debug : Bool) (inner : St → InnerStep)
    (accept : List String) (st0 : St) : PipeResult :=
  match inner { st0 with processors := g } with
  | .raiseCP st e => cpHandle st e
  | .ret st ret => negotiate st ret accept
  | .raiseExc st detail =>
    let st1 := { st with status := .int 500, tmplSlot := some "500.html" }
    negotiate st1
      (.pdict [("status", st1.status.toPy),
        ("message", if debug then .pstr detail else .pstr "An unexpected error occurred")])
      accept

/-- External collaborators and configuration of one server process:
the debug flag, the CherryPy session id, the Salt execution backend
(`self.api.run`) and the auth backend (`mk_token(...).get('token',
False)` as a function of the decoded body). -/
structure Env where
  debug : Bool
  sessionId : String
  run : Chunk → Except String PyData
  mkToken : List (String × Val) → Option String

/-- The `MethodDispatcher` over `url_map = {index: LowDataAdapter,
login: Login}`: resolve a path and method to the route handler body
(`none` is a 404, outside the modelled routes). -/
def routeHandler (env : Env) (method : Method) (body : List (String × Val))
    (path : String) : Option (St → InnerStep) :=
  if strStartsWith path "/login" then
    some (match method with
      | .GET => loginGET
      | .POST => loginPOST (env.mkToken body) env.sessionId)
  else if path == "/" then
    some (match method with
      | .GET => adapterGET
      | .POST => adapterPOST env.run body)
  else none

/-- Dispatch of one request at an effective path, starting from the
current contents `g` of the module-level `ct_out_map` and the current
session token slot.  The initial response state carries the
`Cache-Control: private` header `salt_auth_tool` sets on the pass-through
path; the dispatched handler runs inside `hypermedia_handler`. -/
def dispatchOn (env : Env) (g : Registry) (session : Option PyAtom)
    (req : Request) (path : String) : Option PipeResult :=
  match routeHandler env req.method req.body path with
  | none => none
  | some h =>
    some (hypermediaHandler g env.debug h req.accept
      { status := .unset
        headers := [("Cache-Control", "private")]
        tmplSlot := none
        processors := g
        session := session })

/-- Gate plus dispatch: the effective path is the requested one when
`salt_auth_tool` passes, else `/login` (the target of the raised
`InternalRedirect`, on which the re-run tool passes). -/
def handleRequest (env : Env) (g : Registry) (session : Option PyAtom)
    (req : Request) : Option PipeResult :=
  dispatchOn env g session req
    (if gatePasses session req.xAuthToken req.path then req.path else "/login")

/-- HTTP status of a pipeline outcome (0 for the unrouted 404 case). -/
def statusOf : Option PipeResult → Nat
  | some r => r.status
  | none => 0

/-- Headers of a pipeline outcome. -/
def headersOf : Option PipeResult → List (String × String)
  | some r => r.headers
  | none => []

/-- Contents of the module-level `ct_out_map` after a pipeline outcome. -/
def ctOutMapAfterOf : Option PipeResult → Registry
  | some r => r.ctOutMapAfter
  | none => []

/-- Session token slot after a pipeline outcome. -/
def sessionAfterOf : Option PipeResult → Option (Option PyAtom)
  | some r => some r.sessionAfter
  | none => none

/-- Negotiated Content-Type of a pipeline outcome. -/
def contentTypeOf : Option PipeResult → Option String
  | some r => r.contentType
  | none => none

/-- Envelope carried by the body of a pipeline outcome. -/
def bodyDataOf : Option PipeResult → Option PyData
  | some r => r.body.data
  | none => none

/-- Witness for `fmt_lowdata_equal_lengths` at a concrete all-list body
of common length 2. -/
def c1GoodBody : List (String × Val) :=
  [("fun", .list ["test.ping", "test.ping"]), ("arg", .list ["a", "b"]),
   ("client", .list ["local", "local"])]

/-- The JSON body of claim C1 exactly as the spec writes it: `fun` is a
scalar, `arg` and `client` are two-element lists. -/
def c1Body : List (String × Val) :=
  [("fun", .scalar "test.ping"), ("arg", .list ["a", "b"]),
   ("client", .list ["local", "local"])]

/-- Discriminator for `Except` results. -/
def exceptIsError {ε α : Type} : Except ε α → Bool
  | .error _ => true
  | .ok _ => false

/-- Body with list fields of unequal lengths (spec property 3's example). -/
def c4Bad : List (String × Val) := [("arg", .list ["a", "b"]), ("client", .list ["local"])]

/-- Well-paired body used to exercise the no-partial-chunk conjunct. -/
def c4Good : List (String × Val) := [("fun", .list ["a", "b"])]

/-- Response state as `hypermedia_handler` receives it (after the gate
set `Cache-Control`). -/
def st0Sample : St :=
  { status := .unset
    headers := [("Cache-Control", "private")]
    tmplSlot := none
    processors := ct_out_map
    session := none }

/-- An inner handler raising an ordinary exception. -/
def innerBoom : St → InnerStep := fun st => .raiseExc st "boom"

/-- An inner handler raising a framework exception. -/
def innerRedir : St → InnerStep := fun st => .raiseCP st (.httpRedirect "/" 302)

/-- External collaborators fixed for the concrete witnesses: debug off,
session id `sid0`, a backend returning `None` for every chunk, an auth
backend issuing no token. -/
def env0 : Env :=
  { debug := false
    sessionId := "sid0"
    run := fun _ => .ok .pnone
    mkToken := fun _ => none }

/-- Unauthenticated GET to the entry route. -/
def c3Req : Request := { method := .GET, path := "/", accept := ["application/json"] }

/-- Authenticated (via header) GET to the entry route asking for JSON. -/
def c6Req : Request :=
  { method := .GET, path := "/", xAuthToken := some "tok", accept := ["application/json"] }

/-- POST to the entry route with ill-paired list fields. -/
def c5Req : Request :=
  { method := .POST
    path := "/"
    accept := ["application/json"]
    body := [("arg", .list ["a", "b"]), ("client", .list ["local"])] }

/-- An inner handler returning a plain envelope. -/
def innerWelcome : St → InnerStep := fun st => .ret st .pnone

/-- Backend result model for the C8 witness. -/
def c8f : Chunk → PyData := fun c => .pint c.length

/-- Backend call model for the C8 witness. -/
def c8run : Chunk → Except String PyData := fun c => .ok (c8f c)

/-- Two-chunk body for the C8 witness. -/
def c8Body : List (String × Val) := [("fun", .list ["a", "b"])]

/-- The decoded batch of `c8Body`. -/
def c8Low : List Chunk := [[("fun", "a")], [("fun", "b")]]

/-- The response state carried by a handler outcome. -/
def stOf : InnerStep → St
  | .ret st _ => st
  | .raiseCP st _ => st
  | .raiseExc st _ => st

/-- A handler preserves the `Cache-Control: private` header the gate
set before it ran. -/
def innerPreserves (inner : St → InnerStep) : Prop :=
  ∀ st, ("Cache-Control", "private") ∈ st.headers →
    ("Cache-Control", "private") ∈ (stOf (inner st)).headers

/-- Fallback result used to name the concrete witness outcome. -/
def pipeDefault : PipeResult :=
  { status := 0
    headers := []
    contentType := none
    body := .frameworkDefault
    ctOutMapAfter := []
    sessionAfter := none }

/-- Authenticated GET of the entry route for the C9 witness. -/
def c9Req : Request :=
  { method := .GET, path := "/", xAuthToken := some "tok", accept := ["application/json"] }

/-- The concrete outcome of the C9 witness request. -/
def c9R : PipeResult := (handleRequest env0 ct_out_map none c9Req).getD pipeDefault

/-- Failed-credential login POST for the C10 witness. -/
def c10ReqL : Request :=
  { method := .POST, path := "/login", accept := ["application/json"] }

/-- Follow-up GET of the entry route presenting only the session cookie. -/
def c10Req : Request := { method := .GET, path := "/", accept := ["application/json"] }

theorem maxLen_cons {α : Type} (x : List α) (xs : List (List α)) :
    maxLen (x :: xs) = max x.length (maxLen xs) := rfl

theorem maxLen_le_of_mem {α : Type} {ls : List (List α)} {l : List α} (h : l ∈ ls) :
    l.length ≤ maxLen ls := by
  induction ls with
  | nil => cases h
  | cons x xs ih =>
    rw [maxLen_cons]
    rcases List.mem_cons.mp h with rfl | h2
    · exact Nat.le_max_left _ _
    · exact le_trans (ih h2) (Nat.le_max_right _ _)

theorem maxLen_eq_of_all {α : Type} {ls : List (List α)} {N : Nat} (hne : ls ≠ [])
    (h : ∀ l ∈ ls, l.length = N) : maxLen ls = N := by
  induction ls with
  | nil => cases hne rfl
  | cons x xs ih =>
    rw [maxLen_cons, h x (List.mem_cons_self x xs)]
    cases xs with
    | nil => simp [maxLen]
    | cons y ys =>
      rw [ih (by simp) (fun l hl => h l (List.mem_cons_of_mem _ hl))]
      simp

theorem pairRows_ok_of_full (rows : List (List (Option (String × String))))
    (h : ∀ r ∈ rows, r.any Option.isNone = false) :
    pairRows rows = .ok (rows.map (List.filterMap id)) := by
  induction rows with
  | nil => rfl
  | cons r rs ih =>
    have hr := h r (List.mem_cons_self r rs)
    simp [pairRows, hr, ih (fun x hx => h x (List.mem_cons_of_mem _ hx))]

theorem pairRows_error_of_bad (rows : List (List (Option (String × String))))
    (h : ∃ r ∈ rows, r.any Option.isNone = true) :
    ∃ e, pairRows rows = .error e ∧ e.any Option.isNone = true := by
  induction rows with
  | nil => rcases h with ⟨r, hr, _⟩; cases hr
  | cons r rs ih =>
    by_cases hr : r.any Option.isNone = true
    · exact ⟨r, by simp [pairRows, hr], hr⟩
    · have hbad : ∃ x ∈ rs, x.any Option.isNone = true := by
        rcases h with ⟨x, hx, hpx⟩
        rcases List.mem_cons.mp hx with rfl | hx2
        · exact absurd hpx hr
        · exact ⟨x, hx2, hpx⟩
      rcases ih hbad with ⟨e, he, hpe⟩
      have hr2 : r.any Option.isNone = false := by rwa [Bool.not_eq_true] at hr
      exact ⟨e, by simp [pairRows, hr2, he], hpe⟩

theorem lowPairs_cons (kv : String × Val) (rest : List (String × Val)) :
    lowPairs (kv :: rest) =
      kv.2.toListVal.map (fun a => (kv.1, a)) :: lowPairs rest := rfl

theorem lowPairs_row_full (data : List (String × Val)) (i : Nat)
    (h : ∀ kv ∈ data, i < kv.2.toListVal.length) :
    ((lowPairs data).map (fun l => l.get? i)).any Option.isNone = false := by
  induction data with
  | nil => rfl
  | cons kv rest ih =>
    have hkv := h kv (List.mem_cons_self kv rest)
    have hrest := ih (fun x hx => h x (List.mem_cons_of_mem _ hx))
    rw [lowPairs_cons, List.map_cons, List.any_cons, List.get?_map,
      List.get?_eq_get hkv, hrest]
    rfl

theorem lowPairs_row_chunk (data : List (String × Val)) (i : Nat)
    (h : ∀ kv ∈ data, i < kv.2.toListVal.length) :
    ((lowPairs data).map (fun l => l.get? i)).filterMap id =
      data.map (fun kv => (kv.1, kv.2.toListVal.getD i "")) := by
  induction data with
  | nil => rfl
  | cons kv rest ih =>
    have hkv := h kv (List.mem_cons_self kv rest)
    have hrest := ih (fun x hx => h x (List.mem_cons_of_mem _ hx))
    rw [lowPairs_cons, List.map_cons, List.get?_map, List.get?_eq_get hkv]
    simp only [List.map_cons, Option.map_some]
    rw [List.filterMap_cons]
    simp only [id_eq]
    rw [hrest]
    simp [List.getD_eq_getElem?_getD, List.getElem?_eq_getElem hkv, List.get_eq_getElem]

/-- Claim C1 (amended): for every nonempty body whose fields, after the
coercion `argl = v if isinstance(v, list) else [v]`, all have the same
length `N`, `fmt_lowdata` yields exactly `N` descriptors, the `i`-th
descriptor taking the `i`-th element of every field's coerced list.
Scalar fields are coerced to one-element lists, not broadcast. -/
theorem fmt_lowdata_equal_lengths (data : List (String × Val)) (N : Nat)
    (hne : data ≠ []) (hN : ∀ kv ∈ data, kv.2.toListVal.length = N) :
    fmt_lowdata data =
      .ok ((List.range N).map (fun i =>
        data.map (fun kv => (kv.1, kv.2.toListVal.getD i "")))) := by
  have hlp : ∀ l ∈ lowPairs data, l.length = N := by
    intro l hl
    rcases List.mem_map.mp hl with ⟨kv, hkv, rfl⟩
    simpa using hN kv hkv
  have hlpne : lowPairs data ≠ [] := by
    cases data with
    | nil => cases hne rfl
    | cons a b => simp [lowPairs]
  have hmax : maxLen (lowPairs data) = N := maxLen_eq_of_all hlpne hlp
  have hiz : izipLongest (lowPairs data) =
      (List.range N).map (fun i => (lowPairs data).map (fun l => l.get? i)) := by
    rw [izipLongest, hmax]
  have hlt : ∀ i ∈ List.range N, ∀ kv ∈ data, i < kv.2.toListVal.length := by
    intro i hi kv hkv
    rw [hN kv hkv]
    exact List.mem_range.mp hi
  have hfull : ∀ r ∈ (List.range N).map (fun i => (lowPairs data).map (fun l => l.get? i)),
      r.any Option.isNone = false := by
    intro r hr
    rcases List.mem_map.mp hr with ⟨i, hi, rfl⟩
    exact lowPairs_row_full data i (hlt i hi)
  rw [fmt_lowdata, hiz, pairRows_ok_of_full _ hfull, List.map_map]
  refine congrArg Except.ok (List.map_congr_left ?_)
  intro i hi
  exact lowPairs_row_chunk data i (hlt i hi)

/-- Claim C1, counterexample: on the spec's own example body the decode
does not produce two descriptors; the scalar `fun` is wrapped in a
one-element list, `izip_longest` pads it with `None` at position 1, and
the decode fails with the pairing error carrying that row. -/
theorem c1_counterexample :
    fmt_lowdata c1Body = .error [none, some ("arg", "b"), some ("client", "local")] ∧
    ∀ L, fmt_lowdata c1Body ≠ .ok L := by
  constructor
  · rfl
  · intro L h
    rw [show fmt_lowdata c1Body = .error [none, some ("arg", "b"), some ("client", "local")]
      from rfl] at h
    cases h

/-- Witness: `fmt_lowdata_equal_lengths` applied to the all-list variant
of the C1 body evaluates to the two expected descriptors. -/
theorem c1_witness :
    c1GoodBody ≠ [] ∧ (∀ kv ∈ c1GoodBody, kv.2.toListVal.length = 2) ∧
    fmt_lowdata c1GoodBody =
      .ok [[("fun", "test.ping"), ("arg", "a"), ("client", "local")],
           [("fun", "test.ping"), ("arg", "b"), ("client", "local")]] := by
  refine ⟨by decide, by decide, ?_⟩
  rw [fmt_lowdata_equal_lengths c1GoodBody 2 (by decide) (by decide)]
  rfl

/-- Converse of `lowPairs_row_full`: a fully populated row at index `i`
means every coerced list is longer than `i`. -/
theorem lowPairs_lt_of_row_full (data : List (String × Val)) (i : Nat)
    (h : ((lowPairs data).map (fun l => l.get? i)).any Option.isNone = false) :
    ∀ kv ∈ data, i < kv.2.toListVal.length := by
  intro kv hkv
  by_contra hge
  push_neg at hge
  have hnone : (kv.2.toListVal.map (fun a => (kv.1, a))).get? i = none := by
    apply List.get?_len_le
    simpa using hge
  have hmemp : kv.2.toListVal.map (fun a => (kv.1, a)) ∈ lowPairs data := by
    have := List.mem_map_of_mem
      (fun kv : String × Val => kv.2.toListVal.map (fun a => (kv.1, a))) hkv
    simpa [lowPairs] using this
  have hmem : (kv.2.toListVal.map (fun a => (kv.1, a))).get? i ∈
      (lowPairs data).map (fun l => l.get? i) := List.mem_map_of_mem _ hmemp
  rw [hnone] at hmem
  have hany : ((lowPairs data).map (fun l => l.get? i)).any Option.isNone = true :=
    List.any_eq_true.mpr ⟨none, hmem, rfl⟩
  rw [h] at hany
  cases hany

/-- Claim C4: list-valued fields of unequal length make `fmt_lowdata`
fail with the pairing error, whose reported row contains the missing
(`None`) slot; and any successfully returned batch contains only fully
populated chunks, each carrying exactly the body's keys. -/
theorem fmt_lowdata_malformed :
    (∀ (data : List (String × Val)) (k1 : String) (l1 : List String)
        (k2 : String) (l2 : List String),
      (k1, Val.list l1) ∈ data → (k2, Val.list l2) ∈ data →
      l1.length ≠ l2.length →
      ∃ e, fmt_lowdata data = .error e ∧ e.any Option.isNone = true) ∧
    (∀ (data : List (String × Val)) (L : List Chunk),
      fmt_lowdata data = .ok L → ∀ c ∈ L, c.map Prod.fst = data.map Prod.fst) := by
  have key : ∀ (data : List (String × Val)) (k1 : String) (l1 : List String)
      (k2 : String) (l2 : List String),
      (k1, Val.list l1) ∈ data → (k2, Val.list l2) ∈ data →
      l1.length < l2.length →
      ∃ e, fmt_lowdata data = .error e ∧ e.any Option.isNone = true := by
    intro data k1 l1 k2 l2 h1 h2 hlt
    have hm1 : l1.map (fun a => (k1, a)) ∈ lowPairs data := by
      have := List.mem_map_of_mem
        (fun kv : String × Val => kv.2.toListVal.map (fun a => (kv.1, a))) h1
      simpa [lowPairs, Val.toListVal] using this
    have hm2 : l2.map (fun a => (k2, a)) ∈ lowPairs data := by
      have := List.mem_map_of_mem
        (fun kv : String × Val => kv.2.toListVal.map (fun a => (kv.1, a))) h2
      simpa [lowPairs, Val.toListVal] using this
    have hle2 : l2.length ≤ maxLen (lowPairs data) := by
      have := maxLen_le_of_mem hm2
      simpa using this
    have hMpos : 1 ≤ maxLen (lowPairs data) := by omega
    set M := maxLen (lowPairs data) with hM
    have hrowmem : (lowPairs data).map (fun l => l.get? (M - 1)) ∈
        izipLongest (lowPairs data) := by
      rw [izipLongest, ← hM]
      exact List.mem_map_of_mem _ (List.mem_range.mpr (by omega))
    have hnone : (l1.map (fun a => (k1, a))).get? (M - 1) = none := by
      apply List.get?_len_le
      simp only [List.length_map]
      omega
    have hbadrow : ((lowPairs data).map (fun l => l.get? (M - 1))).any Option.isNone = true := by
      rw [List.any_eq_true]
      refine ⟨(l1.map (fun a => (k1, a))).get? (M - 1), List.mem_map_of_mem _ hm1, ?_⟩
      rw [hnone]
      rfl
    exact pairRows_error_of_bad _ ⟨_, hrowmem, hbadrow⟩
  constructor
  · intro data k1 l1 k2 l2 h1 h2 hne
    rcases Nat.lt_or_ge l1.length l2.length with hlt | hge
    · exact key data k1 l1 k2 l2 h1 h2 hlt
    · exact key data k2 l2 k1 l1 h2 h1 (by omega)
  · intro data L hok c hc
    rw [fmt_lowdata] at hok
    have hfull : ∀ r ∈ izipLongest (lowPairs data), r.any Option.isNone = false := by
      intro r hr
      by_contra hbad
      have hbad2 : r.any Option.isNone = true := by
        cases hx : r.any Option.isNone
        · exact absurd hx hbad
        · rfl
      rcases pairRows_error_of_bad _ ⟨r, hr, hbad2⟩ with ⟨e, he, _⟩
      rw [he] at hok
      cases hok
    rw [pairRows_ok_of_full _ hfull] at hok
    cases hok
    rcases List.mem_map.mp hc with ⟨r, hr, rfl⟩
    have hrfull := hfull r hr
    rw [izipLongest] at hr
    rcases List.mem_map.mp hr with ⟨i, _, rfl⟩
    have hlt := lowPairs_lt_of_row_full data i hrfull
    rw [lowPairs_row_chunk data i hlt, List.map_map]
    rfl

/-- Witness: `fmt_lowdata_malformed` applied to the spec's unequal-length
example fails, and a chunk of a successful decode carries the body's keys. -/
theorem c4_witness :
    exceptIsError (fmt_lowdata c4Bad) = true ∧
    ([("fun", "a")] : Chunk).map Prod.fst = c4Good.map Prod.fst := by
  constructor
  · obtain ⟨e, he, _⟩ := fmt_lowdata_malformed.1 c4Bad "arg" ["a", "b"] "client" ["local"]
      (by decide) (by decide) (by decide)
    rw [he]
    rfl
  · exact fmt_lowdata_malformed.2 c4Good [[("fun", "a")], [("fun", "b")]] rfl
      [("fun", "a")] (by decide)

/-- Membership facts behind a successful `selectOutput`. -/
theorem selectOutput_mem {accept reg : List String} {b : String}
    (h : selectOutput accept reg = some b) : b ∈ accept ∧ reg.contains b = true :=
  ⟨List.mem_of_find?_eq_some h, List.find?_some h⟩

/-- Key membership in the registry gives a `find?` hit. -/
theorem regFind_of_keyMem (r : Registry) (b : String)
    (h : (r.map Prod.fst).contains b = true) :
    ∃ kv, r.find? (fun kv => kv.1 == b) = some kv := by
  have hmem : b ∈ r.map Prod.fst := by simpa using h
  rcases List.mem_map.mp hmem with ⟨kv, hkv, hfst⟩
  have hsome : (r.find? (fun kv => kv.1 == b)).isSome := by
    rw [List.find?_isSome]
    exact ⟨kv, hkv, by simp [hfst]⟩
  rcases Option.isSome_iff_exists.mp hsome with ⟨kv2, h2⟩
  exact ⟨kv2, h2⟩

/-- Outcome of `negotiate` when the Accept header matches a registered
type: the status is the one the handler set, the Content-Type is the
negotiated match, and the body serializes the given envelope. -/
theorem negotiate_some (st : St) (ret : PyData) (accept : List String) (b : String)
    (hb : selectOutput accept (st.processors.map Prod.fst) = some b) :
    (negotiate st ret accept).status = st.status.code ∧
    (negotiate st ret accept).contentType = some b ∧
    (negotiate st ret accept).body.data = some ret := by
  rcases regFind_of_keyMem st.processors b (selectOutput_mem hb).2 with ⟨⟨k, o⟩, hkv⟩
  rw [negotiate]
  simp only [hb, hkv, Option.map_some]
  cases o <;> exact ⟨rfl, rfl, rfl⟩

/-- Outcome of `negotiate` when no registered type satisfies the Accept
header: the raised `NotAcceptable` gives a 406 response. -/
theorem negotiate_none (st : St) (ret : PyData) (accept : List String)
    (h : selectOutput accept (st.processors.map Prod.fst) = none) :
    (negotiate st ret accept).status = 406 ∧
    (negotiate st ret accept).contentType = none := by
  rw [negotiate]
  simp [h]

/-- Claim C2: a non-framework exception from the inner handler forces
status 500 and the envelope message is exactly `str(exc)` in debug mode
and the fixed generic message otherwise, while `CherryPyException`s are
re-raised unmodified to the framework. -/
theorem hypermedia_error_translation (g : Registry) (debug : Bool)
    (inner : St → InnerStep) (accept : List String) (st0 : St) :
    (∀ st detail, inner { st0 with processors := g } = .raiseExc st detail →
      (∃ b, selectOutput accept (st.processors.map Prod.fst) = some b) →
      (hypermediaHandler g debug inner accept st0).status = 500 ∧
      (hypermediaHandler g debug inner accept st0).body.data =
        some (.pdict [("status", .pint 500),
          ("message", if debug then .pstr detail
            else .pstr "An unexpected error occurred")])) ∧
    (∀ st e, inner { st0 with processors := g } = .raiseCP st e →
      hypermediaHandler g debug inner accept st0 = cpHandle st e) := by
  constructor
  · intro st detail hinner hex
    rcases hex with ⟨b, hb⟩
    rw [hypermediaHandler]
    simp only [hinner]
    have hb2 : selectOutput accept
        (({ st with status := .int 500, tmplSlot := some "500.html" } : St).processors.map
          Prod.fst) = some b := hb
    have h := negotiate_some { st with status := .int 500, tmplSlot := some "500.html" }
      (.pdict [("status", (StatusVal.int 500).toPy),
        ("message", if debug then .pstr detail
          else .pstr "An unexpected error occurred")]) accept b hb2
    exact ⟨h.1, h.2.2⟩
  · intro st e hinner
    rw [hypermediaHandler]
    simp only [hinner]

/-- Witness for `hypermedia_error_translation`: a handler failure in
debug mode yields status 500 with the literal exception text, and a
framework redirect is passed through. -/
theorem c2_witness :
    (hypermediaHandler ct_out_map true innerBoom ["application/json"] st0Sample).status = 500 ∧
    (hypermediaHandler ct_out_map true innerBoom ["application/json"] st0Sample).body.data =
      some (.pdict [("status", .pint 500), ("message", .pstr "boom")]) ∧
    hypermediaHandler ct_out_map true innerRedir ["application/json"] st0Sample =
      cpHandle { st0Sample with processors := ct_out_map } (.httpRedirect "/" 302) := by
  have h := (hypermedia_error_translation ct_out_map true innerBoom
    ["application/json"] st0Sample).1 { st0Sample with processors := ct_out_map } "boom"
    rfl ⟨"application/json", rfl⟩
  have h2 := (hypermedia_error_translation ct_out_map true innerRedir
    ["application/json"] st0Sample).2 { st0Sample with processors := ct_out_map }
    (.httpRedirect "/" 302) rfl
  exact ⟨h.1, by simpa using h.2, h2⟩

/-- Claim C3: with no token in the session and no `X-Auth-Token` header,
a request for any non-login path does not pass the gate and its pipeline
outcome is exactly the outcome of the same request re-dispatched to the
login path. -/
theorem gate_redirects_to_login (env : Env) (g : Registry) (req : Request)
    (hpath : strStartsWith req.path "/login" = false)
    (hhdr : req.xAuthToken = none) :
    gatePasses none req.xAuthToken req.path = false ∧
    handleRequest env g none req =
      handleRequest env g none { req with path := "/login" } := by
  have hgate : gatePasses none req.xAuthToken req.path = false := by
    rw [gatePasses, hpath, hhdr]
    rfl
  refine ⟨hgate, ?_⟩
  show dispatchOn env g none req
    (if gatePasses none req.xAuthToken req.path then req.path else "/login") = _
  rw [hgate]
  rfl

/-- Witness for `gate_redirects_to_login`: the unauthenticated GET `/`
is served the login handler's 401 challenge envelope. -/
theorem c3_witness :
    strStartsWith c3Req.path "/login" = false ∧ c3Req.xAuthToken = none ∧
    gatePasses none c3Req.xAuthToken c3Req.path = false ∧
    handleRequest env0 ct_out_map none c3Req =
      handleRequest env0 ct_out_map none { c3Req with path := "/login" } ∧
    statusOf (handleRequest env0 ct_out_map none c3Req) = 401 ∧
    bodyDataOf (handleRequest env0 ct_out_map none c3Req) =
      some (.pdict [("status", .pstr "401 Unauthorized"),
        ("message", .pstr "Please log in")]) := by
  have h := gate_redirects_to_login env0 ct_out_map c3Req (by rfl) (by rfl)
  exact ⟨rfl, rfl, h.1, h.2, rfl, rfl⟩

/-- Claim C6 (code bug): handling one authenticated GET `/` mutates the
process-wide `ct_out_map` — `cherrypy.response.processors` aliases the
module-level dict, so installing the per-response HTML override writes
through to it — and afterwards a request that installs nothing
negotiates `text/html` successfully even though the startup registry
rejects it. -/
theorem registry_mutated_by_get :
    ctOutMapAfterOf (handleRequest env0 ct_out_map none c6Req) =
      ct_out_map ++ [("text/html", .tmplMethod "index.html")] ∧
    ctOutMapAfterOf (handleRequest env0 ct_out_map none c6Req) ≠ ct_out_map ∧
    selectOutput ["text/html"] (ct_out_map.map Prod.fst) = none ∧
    selectOutput ["text/html"]
      ((ctOutMapAfterOf (handleRequest env0 ct_out_map none c6Req)).map Prod.fst) =
      some "text/html" := by
  refine ⟨rfl, ?_, rfl, rfl⟩
  decide

/-- Claim C5, counterexample: the pairing failure raises a plain
`Exception`, which `hypermedia_handler` translates to HTTP 500, not to
any 400-class status. -/
theorem malformed_batch_not_400 :
    statusOf (handleRequest env0 ct_out_map (some (.pstr "tok")) c5Req) = 500 ∧
    ¬(400 ≤ statusOf (handleRequest env0 ct_out_map (some (.pstr "tok")) c5Req) ∧
      statusOf (handleRequest env0 ct_out_map (some (.pstr "tok")) c5Req) ≤ 499) := by
  exact ⟨rfl, by decide⟩

/-- Claim C5 (amended): an authenticated POST `/` whose body fails
lowdata pairing is answered with HTTP 500 through the generic error
translation. -/
theorem malformed_batch_yields_500 (env : Env) (g : Registry) (session : Option PyAtom)
    (req : Request) (r : List (Option (String × String)))
    (hmethod : req.method = .POST) (hpath : req.path = "/")
    (hgate : gatePasses session req.xAuthToken req.path = true)
    (hbad : fmt_lowdata req.body = .error r)
    (hacc : ∃ b, selectOutput req.accept (g.map Prod.fst) = some b) :
    statusOf (handleRequest env g session req) = 500 := by
  have h1 : handleRequest env g session req = dispatchOn env g session req "/" := by
    show dispatchOn env g session req
      (if gatePasses session req.xAuthToken req.path then req.path else "/login") = _
    rw [hgate, if_pos rfl, hpath]
  rw [h1]
  have h2 : routeHandler env req.method req.body "/" =
      some (adapterPOST env.run req.body) := by
    rw [hmethod]
    rfl
  simp only [dispatchOn, h2, statusOf]
  rw [hypermediaHandler]
  simp only [adapterPOST, hbad]
  obtain ⟨b, hb⟩ := hacc
  exact (negotiate_some _ _ _ b hb).1

/-- Witness for `malformed_batch_yields_500` at the concrete ill-paired
POST. -/
theorem c5_witness :
    c5Req.method = .POST ∧ c5Req.path = "/" ∧
    gatePasses (some (.pstr "tok")) c5Req.xAuthToken c5Req.path = true ∧
    fmt_lowdata c5Req.body = .error [some ("arg", "b"), none] ∧
    statusOf (handleRequest env0 ct_out_map (some (.pstr "tok")) c5Req) = 500 :=
  ⟨rfl, rfl, rfl, rfl,
    malformed_batch_yields_500 env0 ct_out_map (some (.pstr "tok")) c5Req
      [some ("arg", "b"), none] rfl rfl rfl rfl ⟨"application/json", rfl⟩⟩

/-- A successful `selectOutput` is the highest-ranked registered match:
the result is an accepted type, it is registered, and no registered
accepted type has a strictly better (smaller) rank. -/
theorem selectOutput_rank (accept reg : List String) (b : String)
    (h : selectOutput accept reg = some b) :
    b ∈ accept ∧ reg.contains b = true ∧
    ∀ a ∈ accept, reg.contains a = true → accept.indexOf b ≤ accept.indexOf a := by
  induction accept with
  | nil => cases h
  | cons x xs ih =>
    by_cases hx : reg.contains x = true
    · have hsel : selectOutput (x :: xs) reg = some x := by
        rw [selectOutput, List.find?_cons_of_pos _ hx]
      have hbx : x = b := Option.some.inj (hsel.symm.trans h)
      subst hbx
      refine ⟨List.mem_cons_self _ _, hx, ?_⟩
      intro a ha hac
      rw [List.indexOf_cons_self]
      exact Nat.zero_le _
    · have hx2 : reg.contains x = false := by rwa [Bool.not_eq_true] at hx
      have hsel : selectOutput xs reg = some b := by
        rw [selectOutput, List.find?_cons_of_neg _ hx] at h
        exact h
      obtain ⟨hmem, hcont, hmin⟩ := ih hsel
      have hxb : x ≠ b := by
        intro hEq
        rw [hEq, hcont] at hx2
        cases hx2
      refine ⟨List.mem_cons_of_mem _ hmem, hcont, ?_⟩
      intro a ha hac
      rcases List.mem_cons.mp ha with rfl | ha2
      · rw [hac] at hx2
        cases hx2
      · have hxa : x ≠ a := by
          intro hEq
          rw [hEq, hac] at hx2
          cases hx2
        rw [List.indexOf_cons_ne _ hxb, List.indexOf_cons_ne _ hxa]
        exact Nat.succ_le_succ (hmin a ha2 hac)

/-- Claim C7: output negotiation returns exactly the highest-ranked
registered match and fails (406) when nothing matches, and the same
negotiation runs on the error path after a non-framework handler
failure. -/
theorem output_negotiation (g : Registry) (debug : Bool) (inner : St → InnerStep)
    (accept : List String) (st0 : St) :
    (∀ (acc reg : List String) (b : String), selectOutput acc reg = some b →
      b ∈ acc ∧ reg.contains b = true ∧
      ∀ a ∈ acc, reg.contains a = true → acc.indexOf b ≤ acc.indexOf a) ∧
    (∀ st v, inner { st0 with processors := g } = .ret st v →
      (∀ b, selectOutput accept (st.processors.map Prod.fst) = some b →
        (hypermediaHandler g debug inner accept st0).contentType = some b) ∧
      (selectOutput accept (st.processors.map Prod.fst) = none →
        (hypermediaHandler g debug inner accept st0).status = 406)) ∧
    (∀ st detail, inner { st0 with processors := g } = .raiseExc st detail →
      (∀ b, selectOutput accept (st.processors.map Prod.fst) = some b →
        (hypermediaHandler g debug inner accept st0).contentType = some b) ∧
      (selectOutput accept (st.processors.map Prod.fst) = none →
        (hypermediaHandler g debug inner accept st0).status = 406)) := by
  refine ⟨fun acc reg b h => selectOutput_rank acc reg b h, ?_, ?_⟩
  · intro st v hinner
    constructor
    · intro b hb
      rw [hypermediaHandler]
      simp only [hinner]
      exact (negotiate_some st v accept b hb).2.1
    · intro hn
      rw [hypermediaHandler]
      simp only [hinner]
      exact (negotiate_none st v accept hn).1
  · intro st detail hinner
    constructor
    · intro b hb
      rw [hypermediaHandler]
      simp only [hinner]
      exact (negotiate_some { st with status := .int 500, tmplSlot := some "500.html" }
        _ accept b hb).2.1
    · intro hn
      rw [hypermediaHandler]
      simp only [hinner]
      exact (negotiate_none { st with status := .int 500, tmplSlot := some "500.html" }
        _ accept hn).1

/-- Witness for `output_negotiation`: ranked selection picks the
first-listed registered type, an unregistered-only Accept gives 406 on
the success path, and the same 406 occurs on the error path. -/
theorem c7_witness :
    (hypermediaHandler ct_out_map false innerWelcome
      ["application/x-yaml", "application/json"] st0Sample).contentType =
      some "application/x-yaml" ∧
    (hypermediaHandler ct_out_map false innerWelcome ["text/html"] st0Sample).status = 406 ∧
    (hypermediaHandler ct_out_map false innerBoom ["text/html"] st0Sample).status = 406 ∧
    (["application/x-yaml", "application/json"].indexOf "application/x-yaml" ≤
      ["application/x-yaml", "application/json"].indexOf "application/json") := by
  have h1 := ((output_negotiation ct_out_map false innerWelcome
    ["application/x-yaml", "application/json"] st0Sample).2.1
    { st0Sample with processors := ct_out_map } .pnone rfl).1 "application/x-yaml" rfl
  have h2 := ((output_negotiation ct_out_map false innerWelcome
    ["text/html"] st0Sample).2.1
    { st0Sample with processors := ct_out_map } .pnone rfl).2 rfl
  have h3 := ((output_negotiation ct_out_map false innerBoom
    ["text/html"] st0Sample).2.2
    { st0Sample with processors := ct_out_map } "boom" rfl).2 rfl
  have h4 := ((output_negotiation ct_out_map false innerWelcome
    ["application/x-yaml", "application/json"] st0Sample).1
    ["application/x-yaml", "application/json"] (ct_out_map.map Prod.fst)
    "application/x-yaml" rfl).2.2 "application/json" (by decide) rfl
  exact ⟨h1, h2, h3, h4⟩

/-- With a backend answering every chunk, the submission comprehension
returns exactly the per-chunk results in input order. -/
theorem exec_lowdata_ok (run : Chunk → Except String PyData) (f : Chunk → PyData)
    (hrun : ∀ c, run c = .ok (f c)) :
    ∀ l, exec_lowdata run l = .ok (l.map f) := by
  intro l
  induction l with
  | nil => rfl
  | cons c cs ih => simp only [exec_lowdata, hrun c, ih, List.map_cons]

/-- Claim C8: POST `/` submits each decoded descriptor individually and
in order to the backend, collects the results with no reordering or
deduplication (the result list is the elementwise image of the batch),
and wraps them as `{return: [...]}`. -/
theorem post_submits_in_order (run : Chunk → Except String PyData) (f : Chunk → PyData)
    (hrun : ∀ c, run c = .ok (f c)) (body : List (String × Val)) (lowdata : List Chunk)
    (st : St) (hok : fmt_lowdata body = .ok lowdata) :
    exec_lowdata run lowdata = .ok (lowdata.map f) ∧
    (lowdata.map f).length = lowdata.length ∧
    (∀ i, (lowdata.map f).get? i = (lowdata.get? i).map f) ∧
    adapterPOST run body st = .ret st (.pdict [("return", .plist (lowdata.map f))]) := by
  refine ⟨exec_lowdata_ok run f hrun lowdata, by simp, ?_, ?_⟩
  · intro i
    exact List.get?_map f lowdata i
  · simp only [adapterPOST, hok, exec_lowdata_ok run f hrun lowdata]

/-- Witness for `post_submits_in_order` on the two-chunk batch. -/
theorem c8_witness :
    fmt_lowdata c8Body = .ok c8Low ∧
    exec_lowdata c8run c8Low = .ok (c8Low.map c8f) ∧
    adapterPOST c8run c8Body st0Sample =
      .ret st0Sample (.pdict [("return", .plist (c8Low.map c8f))]) := by
  have h := post_submits_in_order c8run c8f (fun c => rfl) c8Body c8Low st0Sample rfl
  exact ⟨rfl, h.1, h.2.2.2⟩

/-- Setting any other header keeps `Cache-Control: private`. -/
theorem setHeader_preserves {hs : List (String × String)} {k v : String}
    (h : ("Cache-Control", "private") ∈ hs) (hk : k ≠ "Cache-Control") :
    ("Cache-Control", "private") ∈ setHeader hs k v := by
  rw [setHeader]
  by_cases hany : hs.any (fun kv => kv.1 == k) = true
  · rw [if_pos hany]
    have hfix : (fun kv : String × String => if kv.1 == k then (k, v) else kv)
        ("Cache-Control", "private") = ("Cache-Control", "private") := by
      have : (("Cache-Control" : String) == k) = false := by
        simp [Ne.symm hk]
      simp [this]
    exact hfix ▸ List.mem_map_of_mem _ h
  · rw [if_neg hany]
    exact List.mem_append_left _ h

/-- Lemma: `negotiate` keeps `Cache-Control: private`. -/
theorem negotiate_preserves (st : St) (ret : PyData) (accept : List String)
    (h : ("Cache-Control", "private") ∈ st.headers) :
    ("Cache-Control", "private") ∈ (negotiate st ret accept).headers := by
  rw [negotiate]
  split
  · exact h
  · dsimp only
    split
    · exact setHeader_preserves h (by decide)
    · rename_i o _
      cases o <;> exact setHeader_preserves h (by decide)

/-- Lemma: `cpHandle` keeps `Cache-Control: private`. -/
theorem cpHandle_preserves (st : St) (e : CPExc)
    (h : ("Cache-Control", "private") ∈ st.headers) :
    ("Cache-Control", "private") ∈ (cpHandle st e).headers := by
  cases e with
  | httpRedirect loc code => exact setHeader_preserves h (by decide)

/-- Lemma: `hypermedia_handler` keeps `Cache-Control: private` whenever the
inner handler does. -/
theorem hypermediaHandler_preserves (g : Registry) (debug : Bool)
    (inner : St → InnerStep) (accept : List String) (st0 : St)
    (hp : innerPreserves inner)
    (h0 : ("Cache-Control", "private") ∈ st0.headers) :
    ("Cache-Control", "private") ∈ (hypermediaHandler g debug inner accept st0).headers := by
  have h2 := hp { st0 with processors := g } h0
  rw [hypermediaHandler]
  cases hstep : inner { st0 with processors := g } with
  | ret st v =>
    rw [hstep] at h2
    exact negotiate_preserves st v accept h2
  | raiseCP st e =>
    rw [hstep] at h2
    exact cpHandle_preserves st e h2
  | raiseExc st detail =>
    rw [hstep] at h2
    exact negotiate_preserves { st with status := .int 500, tmplSlot := some "500.html" }
      _ accept h2

/-- Lemma: `LowDataAdapter.GET` preserves the gate's header. -/
theorem adapterGET_preserves : innerPreserves adapterGET := by
  intro st h
  exact h

/-- Lemma: `LowDataAdapter.POST` preserves the gate's header. -/
theorem adapterPOST_preserves (run : Chunk → Except String PyData)
    (body : List (String × Val)) : innerPreserves (adapterPOST run body) := by
  intro st h
  cases hfd : fmt_lowdata body with
  | error r => simp only [innerPreserves, adapterPOST, hfd, stOf]; exact h
  | ok l =>
    cases hex : exec_lowdata run l with
    | error d => simp only [innerPreserves, adapterPOST, hfd, hex, stOf]; exact h
    | ok res => simp only [innerPreserves, adapterPOST, hfd, hex, stOf]; exact h

/-- Lemma: `Login.GET` preserves the gate's header. -/
theorem loginGET_preserves : innerPreserves loginGET := by
  intro st h
  exact setHeader_preserves h (by decide)

/-- Lemma: `Login.POST` preserves the gate's header. -/
theorem loginPOST_preserves (mkTokenRes : Option String) (sessionId : String) :
    innerPreserves (loginPOST mkTokenRes sessionId) := by
  intro st h
  exact setHeader_preserves h (by decide)

/-- Every dispatched route handler preserves the gate's header. -/
theorem routeHandler_preserves (env : Env) (method : Method)
    (body : List (String × Val)) (path : String) (hdl : St → InnerStep)
    (h : routeHandler env method body path = some hdl) : innerPreserves hdl := by
  rw [routeHandler.eq_def] at h
  split_ifs at h
  · cases method with
    | GET =>
      cases h
      exact loginGET_preserves
    | POST =>
      cases h
      exact loginPOST_preserves _ _
  · cases method with
    | GET =>
      cases h
      exact adapterGET_preserves
    | POST =>
      cases h
      exact adapterPOST_preserves _ _

/-- Claim C9: every response the pipeline produces — authenticated or
not, success, redirect, 406 or 500 — carries `Cache-Control: private`. -/
theorem every_response_private (env : Env) (g : Registry) (session : Option PyAtom)
    (req : Request) (R : PipeResult)
    (h : handleRequest env g session req = some R) :
    ("Cache-Control", "private") ∈ R.headers := by
  rw [handleRequest, dispatchOn] at h
  cases hroute : routeHandler env req.method req.body
      (if gatePasses session req.xAuthToken req.path then req.path else "/login") with
  | none =>
    rw [hroute] at h
    cases h
  | some hdl =>
    rw [hroute] at h
    have hR := Option.some.inj h
    rw [← hR]
    exact hypermediaHandler_preserves g env.debug hdl req.accept _
      (routeHandler_preserves env req.method req.body _ hdl hroute)
      (List.mem_cons_self _ _)

/-- Witness for `every_response_private` at a concrete request. -/
theorem c9_witness :
    handleRequest env0 ct_out_map none c9Req = some c9R ∧
    ("Cache-Control", "private") ∈ c9R.headers :=
  ⟨rfl, every_response_private env0 ct_out_map none c9Req c9R rfl⟩

/-- Claim C10: when the auth backend yields no token, `Login.POST` still
stores the falsy value in the session, answers 302 with `X-Auth-Token`
set to the session id; and because the gate tests the stored token for
truthiness, any later request to a non-login path that presents only
that session (no `X-Auth-Token` header) is internally redirected to the
login route. -/
theorem falsy_token_never_passes_gate (env : Env) (g : Registry)
    (session : Option PyAtom) (reqL req : Request)
    (hmk : env.mkToken reqL.body = none)
    (hL : reqL.path = "/login") (hmethod : reqL.method = .POST)
    (hpath : strStartsWith req.path "/login" = false)
    (hhdr : req.xAuthToken = none) :
    (statusOf (handleRequest env g session reqL) = 302 ∧
     ("X-Auth-Token", env.sessionId) ∈ headersOf (handleRequest env g session reqL) ∧
     sessionAfterOf (handleRequest env g session reqL) = some (some .pfalse)) ∧
    (gatePasses (some .pfalse) req.xAuthToken req.path = false ∧
     handleRequest env g (some .pfalse) req =
       handleRequest env g (some .pfalse) { req with path := "/login" }) := by
  constructor
  · have hgateL : gatePasses session reqL.xAuthToken reqL.path = true := by
      rw [hL]
      rfl
    have h1 : handleRequest env g session reqL = dispatchOn env g session reqL "/login" := by
      show dispatchOn env g session reqL
        (if gatePasses session reqL.xAuthToken reqL.path then reqL.path else "/login") = _
      rw [hgateL, if_pos rfl, hL]
    have h2 : routeHandler env reqL.method reqL.body "/login" =
        some (loginPOST (env.mkToken reqL.body) env.sessionId) := by
      rw [hmethod]
      rfl
    rw [h1]
    rw [hmk] at h2
    simp only [dispatchOn, h2]
    refine ⟨rfl, ?_, rfl⟩
    show ("X-Auth-Token", env.sessionId) ∈
      setHeader (setHeader [("Cache-Control", "private")] "X-Auth-Token" env.sessionId)
        "Location" "/"
    simp [setHeader]
  · have hgate : gatePasses (some .pfalse) req.xAuthToken req.path = false := by
      rw [gatePasses, hpath, hhdr]
      rfl
    refine ⟨hgate, ?_⟩
    show dispatchOn env g (some .pfalse) req
      (if gatePasses (some .pfalse) req.xAuthToken req.path then req.path else "/login") = _
    rw [hgate]
    rfl

/-- Witness for `falsy_token_never_passes_gate` at concrete requests. -/
theorem c10_witness :
    env0.mkToken c10ReqL.body = none ∧
    statusOf (handleRequest env0 ct_out_map none c10ReqL) = 302 ∧
    ("X-Auth-Token", env0.sessionId) ∈ headersOf (handleRequest env0 ct_out_map none c10ReqL) ∧
    sessionAfterOf (handleRequest env0 ct_out_map none c10ReqL) = some (some .pfalse) ∧
    gatePasses (some .pfalse) c10Req.xAuthToken c10Req.path = false ∧
    handleRequest env0 ct_out_map (some .pfalse) c10Req =
      handleRequest env0 ct_out_map (some .pfalse) { c10Req with path := "/login" } := by
  have h := falsy_token_never_passes_gate env0 ct_out_map none c10ReqL c10Req
    rfl rfl rfl rfl rfl
  exact ⟨rfl, h.1.1, h.1.2.1, h.1.2.2, h.2.1, h.2.2⟩

end RestCherry
